import Mathlib

/-!
Verification of the core of `clips.py`, an ephemeral name-addressed
text-sharing store.  The embedding below translates the Python source:

  * class `Clipboard` (fields `name`, `text`, `timestamp`; methods
    `get`, `set`) with the lazy 900-second expiry rule;
  * the module-level dict `clipboards` and `ClipsController.get_clipboard`
    (get-or-create);
  * the request handlers `get_text`, `set_text`, `do_text` and the
    router `default`;
  * `read_wordlist` (Python `f.readlines()`, which keeps each line's
    trailing newline) and `do_random` (name generation via
    `random.sample` + `str.capitalize` + `"".join`).

Wall-clock time (`time.time()`) is modelled as a `Nat` parameter `now`
passed to every operation; the in-place mutation of a `Clipboard` held
in the dict is modelled by writing the updated record back into the
store at the same key.
-/

set_option autoImplicit false

/-- `TIMEOUT_SECS = 900` from the source: elapsed time since the last
access after which a clipboard's contents are cleared on the next read. -/
def TIMEOUT_SECS : Nat := 900

/-- `NUM_RANDOM_WORDS = 3` from the source. -/
def NUM_RANDOM_WORDS : Nat := 3

/-- The `Clipboard` class: a named slot with text and a last-access
timestamp (`self.timestamp`). -/
structure Clipboard where
  name : String
  text : String
  timestamp : Nat
deriving DecidableEq, Repr

/-- `Clipboard.__init__(name)`: `text = ""`, `timestamp = time.time()`. -/
def Clipboard.init (name : String) (now : Nat) : Clipboard :=
  { name := name, text := "", timestamp := now }

/-- `Clipboard.get()`: if `self.timestamp + TIMEOUT_SECS <= time.time()`
then clear `self.text`; then `self.timestamp = time.time()`; return
`self.text`.  Returns the updated clipboard together with the returned
text. -/
def Clipboard.get (cb : Clipboard) (now : Nat) : Clipboard × String :=
  let text := if cb.timestamp + TIMEOUT_SECS ≤ now then "" else cb.text
  ({ name := cb.name, text := text, timestamp := now }, text)

/-- `Clipboard.set(value)`: `self.text = value`, `self.timestamp = time.time()`. -/
def Clipboard.set (cb : Clipboard) (value : String) (now : Nat) : Clipboard :=
  { name := cb.name, text := value, timestamp := now }

/-- The module-level dict `clipboards`, modelled as an association list in
insertion order (a Python dict preserves insertion order and every
insertion made by the program is of a key not yet present). -/
abbrev Store := List (String × Clipboard)

/-- `clipboards.get(name)`: first binding of `name`, if any. -/
def storeLookup : Store → String → Option Clipboard
  | [], _ => none
  | p :: rest, n => if p.1 = n then some p.2 else storeLookup rest n

/-- Writing back the mutated `Clipboard` object held at key `name`
(in Python the dict entry and the local variable alias one object, so a
method call on the local updates the stored entry in place). -/
def storeUpdate (s : Store) (name : String) (cb : Clipboard) : Store :=
  s.map (fun p => if p.1 = name then (name, cb) else p)

/-- `ClipsController.get_clipboard(name)`: look `name` up in `clipboards`;
if absent, create `Clipboard(name)` and insert it.  Returns the updated
store and the clipboard handed to the caller. -/
def get_clipboard (s : Store) (name : String) (now : Nat) : Store × Clipboard :=
  match storeLookup s name with
  | some cb => (s, cb)
  | none => (s ++ [(name, Clipboard.init name now)], Clipboard.init name now)

/-- `ClipsController.get_text(name)`: `get_clipboard(name)` then
`clipboard.get()` (the `Content-Type: text/plain` response header is
presentation-only and not modelled).  Returns the updated store and the
response body. -/
def get_text (s : Store) (name : String) (now : Nat) : Store × String :=
  let r := get_clipboard s name now
  let g := r.2.get now
  (storeUpdate r.1 name g.1, g.2)

/-- The store effect of a successful write: `get_clipboard(name)` then
`clipboard.set(text)` (the body of `set_text` after its two checks). -/
def write_text (s : Store) (name : String) (text : String) (now : Nat) : Store :=
  let r := get_clipboard s name now
  storeUpdate r.1 name (r.2.set text now)

/-- HTTP-level outcome of a handler. -/
inductive Response where
  | ok (body : String)
  | indexPage
  | clipPage
  | redirect (location : String)
  | err (code : Nat)
deriving DecidableEq, Repr

/-- `ClipsController.set_text(name)`: first the `Content-Type` header is
checked (`!= "text/plain"` raises `HTTPError(400)`); then the request
body is decoded as UTF-8 (`decoded = none` models a `UnicodeDecodeError`,
which propagates as a server error); only then is `get_clipboard` called
and the clipboard written.  The decode result is a parameter because the
byte-level decoder is the Python standard library, not this program. -/
def set_text (ctype : String) (decoded : Option String) (name : String)
    (now : Nat) (s : Store) : Store × Response :=
  if ctype ≠ "text/plain" then (s, Response.err 400)
  else
    match decoded with
    | none => (s, Response.err 500)
    | some text => (write_text s name text now, Response.ok "")

/-- `ClipsController.do_text(name)`: dispatch on the request method. -/
def do_text (method : String) (name : String) (ctype : String)
    (decoded : Option String) (now : Nat) (s : Store) : Store × Response :=
  if method = "GET" then
    let r := get_text s name now
    (r.1, Response.ok r.2)
  else if method = "POST" then set_text ctype decoded name now s
  else (s, Response.err 405)

/-- Python `str.lower` (ASCII case mapping). -/
def pyLower (s : String) : String :=
  String.mk (s.data.map Char.toLower)

/-- Python `str.capitalize`: first character upper-cased, the rest
lower-cased (ASCII case mapping). -/
def pyCapitalize (s : String) : String :=
  match s.data with
  | [] => ""
  | c :: rest => String.mk (c.toUpper :: rest.map Char.toLower)

/-- Python `file.readlines()` applied to the text content of
`wordlist.txt`: split into lines, each line KEEPING its trailing
newline character (the final line keeps none only if the file does not
end in a newline). -/
def readlinesAux : List Char → List Char → List String
  | [], [] => []
  | [], acc => [String.mk acc.reverse]
  | c :: cs, acc =>
    if c = '\n' then String.mk (acc.reverse ++ ['\n']) :: readlinesAux cs []
    else readlinesAux cs (c :: acc)

/-- `read_wordlist`:  `f.readlines()` on the wordlist file's content. -/
def read_wordlist (content : String) : List String :=
  readlinesAux content.data []

/-- `ClipsController.do_random`, with the randomness factored out:
`random.sample(wordlist, NUM_RANDOM_WORDS)` picks the entries of
`wordlist` at the (distinct) positions `idxs`, and the redirect target
name is `"".join(map(str.capitalize, words))`. -/
def do_random_name (wordlist : List String) (idxs : List Nat) : String :=
  String.join ((idxs.filterMap (fun i => wordlist.get? i)).map pyCapitalize)

/-- `ClipsController.default(*segs)`: the router.  `rnd` stands for the
name `do_random` would generate from its random sample. -/
def default_handler (method : String) (segs : List String) (ctype : String)
    (decoded : Option String) (rnd : String) (now : Nat) (s : Store) :
    Store × Response :=
  match segs with
  | [] => (s, Response.indexPage)
  | [seg] =>
    if pyLower seg = "random" then (s, Response.redirect ("/" ++ rnd))
    else (s, Response.clipPage)
  | [a, b] =>
    if pyLower b = "text" then do_text method (pyLower a) ctype decoded now s
    else (s, Response.err 404)
  | _ => (s, Response.err 404)

/-! ### Store operations as a transition system (for sequence claims) -/

/-- One store-level operation: a read (`get_text`), a write (the success
path of `set_text`), or a bare get-or-create. -/
inductive Op where
  | read (name : String) (now : Nat)
  | write (name : String) (text : String) (now : Nat)
  | touch (name : String) (now : Nat)
deriving DecidableEq, Repr

/-- Apply one operation to the store. -/
def applyOp (s : Store) : Op → Store
  | Op.read n now => (get_text s n now).1
  | Op.write n t now => write_text s n t now
  | Op.touch n now => (get_clipboard s n now).1

/-- Run a sequence of operations. -/
def runOps (s : Store) (ops : List Op) : Store := ops.foldl applyOp s

/-! ### Accesses to a single clipboard (for the keep-alive claim) -/

/-- One access to a single clipboard: a read or a write, at a time. -/
inductive Access where
  | get (now : Nat)
  | set (text : String) (now : Nat)
deriving DecidableEq, Repr

/-- The time at which an access happens. -/
def Access.time : Access → Nat
  | Access.get now => now
  | Access.set _ now => now

/-- Apply one access to a clipboard. -/
def applyAccess (cb : Clipboard) : Access → Clipboard
  | Access.get now => (cb.get now).1
  | Access.set t now => cb.set t now

/-- Run a sequence of accesses on one clipboard. -/
def runAccesses (cb : Clipboard) (l : List Access) : Clipboard :=
  l.foldl applyAccess cb

/-- Each access comes strictly less than `TIMEOUT_SECS` after the
previous one (the anchor `t` is the time of the access that produced
the current state). -/
def gapsOk : Nat → List Access → Bool
  | _, [] => true
  | t, a :: rest => decide (a.time - t < TIMEOUT_SECS) && gapsOk a.time rest

/-- The text the clipboard should hold after a run: the argument of the
last `set` in the list, or the starting text if no `set` occurs. -/
def lastWritten (dflt : String) : List Access → String
  | [] => dflt
  | Access.get _ :: rest => lastWritten dflt rest
  | Access.set t _ :: rest => lastWritten t rest

/-! ### Store lemmas -/

theorem storeLookup_append_of_none {s : Store} {n : String}
    (h : storeLookup s n = none) (t : Store) :
    storeLookup (s ++ t) n = storeLookup t n := by
  induction s with
  | nil => rfl
  | cons p rest ih =>
    by_cases hp : p.1 = n
    · simp [storeLookup, hp] at h
    · simp [storeLookup, hp] at h ⊢
      exact ih h

theorem storeLookup_append_of_some {s : Store} {n : String} {cb : Clipboard}
    (h : storeLookup s n = some cb) (t : Store) :
    storeLookup (s ++ t) n = some cb := by
  induction s with
  | nil => simp [storeLookup] at h
  | cons p rest ih =>
    by_cases hp : p.1 = n
    · simp [storeLookup, hp] at h ⊢
      exact h
    · simp [storeLookup, hp] at h ⊢
      exact ih h

theorem storeLookup_storeUpdate_self {s : Store} {n : String}
    (h : storeLookup s n ≠ none) (x : Clipboard) :
    storeLookup (storeUpdate s n x) n = some x := by
  induction s with
  | nil => simp [storeLookup] at h
  | cons p rest ih =>
    by_cases hp : p.1 = n
    · simp [storeLookup, storeUpdate, hp]
    · simp [storeLookup, storeUpdate, hp] at h ⊢
      exact ih h

theorem storeLookup_storeUpdate_ne {m n : String} (hmn : m ≠ n)
    (s : Store) (x : Clipboard) :
    storeLookup (storeUpdate s n x) m = storeLookup s m := by
  induction s with
  | nil => rfl
  | cons p rest ih =>
    show storeLookup ((if p.1 = n then (n, x) else p) :: storeUpdate rest n x) m
        = storeLookup (p :: rest) m
    by_cases hp : p.1 = n
    · rw [if_pos hp]
      show (if n = m then some x else storeLookup (storeUpdate rest n x) m)
          = if p.1 = m then some p.2 else storeLookup rest m
      rw [if_neg (Ne.symm hmn), if_neg (by rw [hp]; exact Ne.symm hmn)]
      exact ih
    · rw [if_neg hp]
      show (if p.1 = m then some p.2 else storeLookup (storeUpdate rest n x) m)
          = if p.1 = m then some p.2 else storeLookup rest m
      by_cases hm : p.1 = m
      · rw [if_pos hm, if_pos hm]
      · rw [if_neg hm, if_neg hm]; exact ih

theorem storeUpdate_length (s : Store) (n : String) (x : Clipboard) :
    (storeUpdate s n x).length = s.length := by
  simp [storeUpdate]

theorem get_clipboard_of_some {s : Store} {n : String} {cb : Clipboard}
    (now : Nat) (h : storeLookup s n = some cb) :
    get_clipboard s n now = (s, cb) := by
  unfold get_clipboard
  rw [h]

theorem get_clipboard_of_none {s : Store} {n : String} (now : Nat)
    (h : storeLookup s n = none) :
    get_clipboard s n now =
      (s ++ [(n, Clipboard.init n now)], Clipboard.init n now) := by
  unfold get_clipboard
  rw [h]

theorem get_clipboard_lookup (s : Store) (n : String) (now : Nat) :
    storeLookup (get_clipboard s n now).1 n = some (get_clipboard s n now).2 := by
  cases h : storeLookup s n with
  | some cb => rw [get_clipboard_of_some now h]; exact h
  | none =>
    rw [get_clipboard_of_none now h]
    simp only
    rw [storeLookup_append_of_none h]
    simp [storeLookup]

theorem write_text_lookup (s : Store) (n t : String) (now : Nat) :
    storeLookup (write_text s n t now) n =
      some (((get_clipboard s n now).2).set t now) := by
  unfold write_text
  exact storeLookup_storeUpdate_self
    (by rw [get_clipboard_lookup]; exact Option.some_ne_none _) _

/-! ### Claim C1 -/

/-- Claim C1: for every `Clipboard` and every call to `get`, if
`now - lastAccess >= TIMEOUT` (900 seconds) then `text` is reset to the
empty string before the call completes; `lastAccess` is then set to
`now` unconditionally; and the call returns the (possibly cleared)
text. -/
theorem clipboard_get_expires_and_touches (cb : Clipboard) (now : Nat) :
    (TIMEOUT_SECS ≤ now - cb.timestamp →
      (cb.get now).1.text = "" ∧ (cb.get now).2 = "") ∧
    (cb.get now).1.timestamp = now ∧
    (cb.get now).2 = (cb.get now).1.text := by
  refine ⟨?_, rfl, rfl⟩
  intro h
  have hc : cb.timestamp + TIMEOUT_SECS ≤ now := by
    unfold TIMEOUT_SECS at h ⊢
    omega
  simp [Clipboard.get, hc]

/-- Witness for C1 at a concrete expired clipboard. -/
theorem clipboard_get_expires_and_touches_witness :
    ((Clipboard.mk "demo" "hello" 0).get 900).2 = "" :=
  ((clipboard_get_expires_and_touches (Clipboard.mk "demo" "hello" 0) 900).1
    (by decide)).2

/-! ### Claim C2 -/

/-- Claim C2: after `Write(n, t)` completes at time `t0`, a `Read(n)` at
any time strictly less than `t0 + TIMEOUT` returns `t` unchanged, and a
`Read(n)` at any time `>= t0 + TIMEOUT` with no intervening access
returns the empty string. -/
theorem write_then_read (s : Store) (n t : String) (t0 t1 : Nat) :
    (t1 < t0 + TIMEOUT_SECS → (get_text (write_text s n t t0) n t1).2 = t) ∧
    (t0 + TIMEOUT_SECS ≤ t1 → (get_text (write_text s n t t0) n t1).2 = "") := by
  have hl := write_text_lookup s n t t0
  constructor
  · intro h
    have hc : ¬ (t0 + TIMEOUT_SECS ≤ t1) := by omega
    unfold get_text
    rw [get_clipboard_of_some t1 hl]
    simp [Clipboard.get, Clipboard.set, hc]
  · intro h
    unfold get_text
    rw [get_clipboard_of_some t1 hl]
    simp [Clipboard.get, Clipboard.set, h]

/-- Witness for C2: write "hello" at time 0, read at time 1 (returns
"hello") and at time 900 (returns ""). -/
theorem write_then_read_witness :
    (get_text (write_text [] "demo" "hello" 0) "demo" 1).2 = "hello" ∧
    (get_text (write_text [] "demo" "hello" 0) "demo" 900).2 = "" :=
  ⟨(write_then_read [] "demo" "hello" 0 1).1 (by decide),
   (write_then_read [] "demo" "hello" 0 900).2 (by decide)⟩

/-! ### Claim C7 -/

/-- Claim C7: the first access to a previously unseen name creates its
clipboard with `text = ""` and `lastAccess = now`; a read of a name
never seen before succeeds and returns the empty string. -/
theorem first_access_creates (s : Store) (n : String) (now : Nat)
    (h : storeLookup s n = none) :
    (get_clipboard s n now).2 = Clipboard.init n now ∧
    (get_text s n now).2 = "" := by
  constructor
  · rw [get_clipboard_of_none now h]
  · unfold get_text
    rw [get_clipboard_of_none now h]
    by_cases hc : now + TIMEOUT_SECS ≤ now <;>
      simp [Clipboard.get, Clipboard.init, hc]

/-- Witness for C7: reading the never-seen name "neverused" from the
empty store. -/
theorem first_access_creates_witness :
    (get_clipboard ([] : Store) "neverused" 5).2 = Clipboard.init "neverused" 5 ∧
    (get_text ([] : Store) "neverused" 5).2 = "" :=
  first_access_creates [] "neverused" 5 rfl

/-! ### Claim C8 -/

/-- Claim C8: a POST whose `Content-Type` is not `text/plain` fails with
error 400 and the target clipboard's text and timestamp are exactly as
they were before the request. -/
theorem set_text_bad_ctype (ctype : String) (decoded : Option String)
    (n : String) (now : Nat) (s : Store) (h : ctype ≠ "text/plain") :
    set_text ctype decoded n now s = (s, Response.err 400) ∧
    storeLookup (set_text ctype decoded n now s).1 n = storeLookup s n := by
  have h1 : set_text ctype decoded n now s = (s, Response.err 400) := by
    unfold set_text
    simp [h]
  exact ⟨h1, by rw [h1]⟩

/-- Witness for C8: a JSON POST against a store holding "demo". -/
theorem set_text_bad_ctype_witness :
    set_text "application/json" (some "x") "demo" 7
        [("demo", Clipboard.mk "demo" "old" 3)]
      = ([("demo", Clipboard.mk "demo" "old" 3)], Response.err 400) :=
  (set_text_bad_ctype "application/json" (some "x") "demo" 7
    [("demo", Clipboard.mk "demo" "old" 3)] (by decide)).1

/-! ### Claim C10 -/

/-- Claim C10: in `set_text` the `Content-Type` check and the decoding
of the request body both happen before `get_clipboard` is called, so a
rejected POST (wrong content type) or a POST whose body fails to decode
as UTF-8 leaves the entire registry unchanged: no entry is created for
a previously unseen name and no existing clipboard is modified. -/
theorem set_text_rejected_leaves_store (ctype : String)
    (decoded : Option String) (n : String) (now : Nat) (s : Store)
    (h : ctype ≠ "text/plain" ∨ decoded = none) :
    (set_text ctype decoded n now s).1 = s := by
  unfold set_text
  rcases h with h | h
  · simp [h]
  · subst h
    by_cases hc : ctype ≠ "text/plain" <;> simp [hc]

/-- Witness for C10: an undecodable body with the correct content type
leaves the empty store empty. -/
theorem set_text_rejected_leaves_store_witness :
    (set_text "text/plain" none "neverused" 7 ([] : Store)).1 = [] :=
  set_text_rejected_leaves_store "text/plain" none "neverused" 7 []
    (Or.inr rfl)

/-! ### Claim C3 -/

/-- Claim C3: every successful read or write resets the expiry clock:
for every sequence of accesses to one clipboard in which every two
consecutive accesses are strictly less than `TIMEOUT` apart, the
content written last is never cleared, however long the sequence. -/
theorem accesses_keep_content_alive (cb : Clipboard) (l : List Access)
    (h : gapsOk cb.timestamp l = true) :
    (runAccesses cb l).text = lastWritten cb.text l := by
  induction l generalizing cb with
  | nil => rfl
  | cons a rest ih =>
    rw [gapsOk, Bool.and_eq_true, decide_eq_true_eq] at h
    obtain ⟨h1, h2⟩ := h
    cases a with
    | get now =>
      have hc : ¬ (cb.timestamp + TIMEOUT_SECS ≤ now) := by
        have hlt : now - cb.timestamp < TIMEOUT_SECS := h1
        omega
      have hcb : (cb.get now).1 = Clipboard.mk cb.name cb.text now := by
        simp [Clipboard.get, hc]
      show (runAccesses ((cb.get now).1) rest).text = lastWritten cb.text rest
      rw [hcb]
      exact ih (Clipboard.mk cb.name cb.text now) h2
    | set t now =>
      show (runAccesses (cb.set t now) rest).text = lastWritten t rest
      exact ih (cb.set t now) h2

/-- Witness for C3: reads and a write spaced 700-800 seconds apart keep
the last-written text "w" alive past several timeout windows. -/
theorem accesses_keep_content_alive_witness :
    (runAccesses (Clipboard.mk "demo" "v" 0)
      [Access.get 800, Access.set "w" 1500, Access.get 2300]).text = "w" :=
  (accesses_keep_content_alive (Clipboard.mk "demo" "v" 0)
    [Access.get 800, Access.set "w" 1500, Access.get 2300]
    (by decide)).trans rfl

/-! ### Claim C4 -/

theorem get_clipboard_length (s : Store) (n : String) (now : Nat) :
    s.length ≤ ((get_clipboard s n now).1).length := by
  cases hx : storeLookup s n with
  | some c => rw [get_clipboard_of_some now hx]
  | none =>
    rw [get_clipboard_of_none now hx]
    simp

theorem touch_update_preserves (s : Store) (n : String) (now : Nat)
    (f : Clipboard → Clipboard) (hf : ∀ c, (f c).name = c.name)
    (m : String) (cb : Clipboard) (h : storeLookup s m = some cb) :
    ∃ cb', storeLookup
        (storeUpdate (get_clipboard s n now).1 n (f (get_clipboard s n now).2)) m
      = some cb' ∧ cb'.name = cb.name := by
  by_cases hmn : m = n
  · subst hmn
    have hg := get_clipboard_lookup s m now
    refine ⟨f (get_clipboard s m now).2,
      storeLookup_storeUpdate_self (by rw [hg]; exact Option.some_ne_none _) _, ?_⟩
    rw [hf]
    rw [get_clipboard_of_some now h]
  · rw [storeLookup_storeUpdate_ne hmn]
    cases hx : storeLookup s n with
    | some c =>
      rw [get_clipboard_of_some now hx]
      exact ⟨cb, h, rfl⟩
    | none =>
      rw [get_clipboard_of_none now hx]
      exact ⟨cb, storeLookup_append_of_some h _, rfl⟩

theorem applyOp_preserves (s : Store) (op : Op) (m : String) (cb : Clipboard)
    (h : storeLookup s m = some cb) :
    ∃ cb', storeLookup (applyOp s op) m = some cb' ∧ cb'.name = cb.name := by
  cases op with
  | touch n now =>
    show ∃ cb', storeLookup (get_clipboard s n now).1 m = some cb' ∧
      cb'.name = cb.name
    cases hx : storeLookup s n with
    | some c =>
      rw [get_clipboard_of_some now hx]
      exact ⟨cb, h, rfl⟩
    | none =>
      rw [get_clipboard_of_none now hx]
      exact ⟨cb, storeLookup_append_of_some h _, rfl⟩
  | read n now =>
    exact touch_update_preserves s n now (fun c => (c.get now).1)
      (fun c => rfl) m cb h
  | write n t now =>
    exact touch_update_preserves s n now (fun c => c.set t now)
      (fun c => rfl) m cb h

theorem applyOp_length (s : Store) (op : Op) :
    s.length ≤ (applyOp s op).length := by
  cases op with
  | touch n now => exact get_clipboard_length s n now
  | read n now =>
    show s.length ≤ (storeUpdate (get_clipboard s n now).1 n
      ((get_clipboard s n now).2.get now).1).length
    rw [storeUpdate_length]
    exact get_clipboard_length s n now
  | write n t now =>
    show s.length ≤ (storeUpdate (get_clipboard s n now).1 n
      ((get_clipboard s n now).2.set t now)).length
    rw [storeUpdate_length]
    exact get_clipboard_length s n now

theorem runOps_preserves (s : Store) (ops : List Op) (m : String)
    (cb : Clipboard) (h : storeLookup s m = some cb) :
    ∃ cb', storeLookup (runOps s ops) m = some cb' ∧ cb'.name = cb.name := by
  induction ops generalizing s cb with
  | nil => exact ⟨cb, h, rfl⟩
  | cons op rest ih =>
    obtain ⟨c1, h1, hn1⟩ := applyOp_preserves s op m cb h
    obtain ⟨c2, h2, hn2⟩ := ih (applyOp s op) c1 h1
    exact ⟨c2, h2, hn2.trans hn1⟩

theorem runOps_length (s : Store) (ops : List Op) :
    s.length ≤ (runOps s ops).length := by
  induction ops generalizing s with
  | nil => exact Nat.le_refl _
  | cons op rest ih => exact (applyOp_length s op).trans (ih (applyOp s op))

/-- Claim C4: no store operation removes an entry — after any sequence
of reads, writes and get-or-creates, every name previously present is
still mapped to its clipboard (same identity, witnessed by the
immutable `name` field), the number of entries is monotonically
non-decreasing, and `get_clipboard` either returns the existing entry
unchanged or inserts exactly one new empty entry. -/
theorem store_entries_never_removed (s : Store) (ops : List Op)
    (n : String) (now : Nat) :
    (∀ m cb, storeLookup s m = some cb →
      ∃ cb', storeLookup (runOps s ops) m = some cb' ∧ cb'.name = cb.name) ∧
    s.length ≤ (runOps s ops).length ∧
    (∀ cb, storeLookup s n = some cb → get_clipboard s n now = (s, cb)) ∧
    (storeLookup s n = none →
      get_clipboard s n now =
        (s ++ [(n, Clipboard.init n now)], Clipboard.init n now)) := by
  refine ⟨fun m cb h => runOps_preserves s ops m cb h, runOps_length s ops,
    fun cb h => get_clipboard_of_some now h, fun h => get_clipboard_of_none now h⟩

/-- Witness for C4 on a concrete store and operation sequence. -/
theorem store_entries_never_removed_witness :
    (∃ cb', storeLookup (runOps [("a", Clipboard.mk "a" "x" 0)]
        [Op.read "a" 10, Op.write "b" "y" 20]) "a" = some cb' ∧
      cb'.name = (Clipboard.mk "a" "x" 0).name) ∧
    ([("a", Clipboard.mk "a" "x" 0)] : Store).length ≤
      (runOps [("a", Clipboard.mk "a" "x" 0)]
        [Op.read "a" 10, Op.write "b" "y" 20]).length :=
  ⟨(store_entries_never_removed [("a", Clipboard.mk "a" "x" 0)]
      [Op.read "a" 10, Op.write "b" "y" 20] "b" 30).1 "a"
      (Clipboard.mk "a" "x" 0) (by decide),
   (store_entries_never_removed [("a", Clipboard.mk "a" "x" 0)]
      [Op.read "a" 10, Op.write "b" "y" 20] "b" 30).2.1⟩

/-! ### Claim C5 -/

/-- Claim C5 counterexample: `get_clipboard` performs no case
normalization before consulting the registry — calling it directly with
"A" and then with "a" creates two distinct entries holding two distinct
clipboards, so at the `get_clipboard` level operations on case variants
of a name do not observe the same clipboard. -/
theorem get_clipboard_not_normalizing :
    ((get_clipboard ((get_clipboard ([] : Store) "A" 0).1) "a" 0).1).length = 2 ∧
    (get_clipboard ([] : Store) "A" 0).2.name ≠
      (get_clipboard ((get_clipboard ([] : Store) "A" 0).1) "a" 0).2.name := by
  decide

/-- Claim C5 (amended): the lower-casing happens in the router
(`default` calls `do_text(segs[0].lower())`), not inside
`get_clipboard`; through the HTTP interface, requests on `/<n>/text`
for case variants of the same name are handled identically and so
observe the same underlying clipboard. -/
theorem http_text_case_insensitive (method a b ctype : String)
    (decoded : Option String) (rnd : String) (now : Nat) (s : Store)
    (h : pyLower a = pyLower b) :
    default_handler method [a, "text"] ctype decoded rnd now s =
      default_handler method [b, "text"] ctype decoded rnd now s := by
  show (if pyLower "text" = "text"
        then do_text method (pyLower a) ctype decoded now s
        else (s, Response.err 404)) =
       (if pyLower "text" = "text"
        then do_text method (pyLower b) ctype decoded now s
        else (s, Response.err 404))
  rw [h]

/-- Witness for the amended C5: `GET /FooBar/text` and
`GET /foobar/text` against the empty store. -/
theorem http_text_case_insensitive_witness :
    default_handler "GET" ["FooBar", "text"] "text/plain" none "" 0 [] =
      default_handler "GET" ["foobar", "text"] "text/plain" none "" 0 [] :=
  http_text_case_insensitive "GET" "FooBar" "foobar" "text/plain" none "" 0 []
    (by decide)

/-! ### Claim C6 -/

/-- Claim C6 (code bug): `read_wordlist` uses `f.readlines()`, which
keeps each line's trailing newline, and `do_random` joins the sampled
words without stripping, so on a multi-line wordlist the generated name
contains a newline character after every word drawn from a
newline-terminated line — it does not have the form `Word1Word2Word3`
with no characters between or after the words. -/
theorem do_random_name_keeps_newlines :
    read_wordlist "apple\nbanana\ncherry\n" = ["apple\n", "banana\n", "cherry\n"] ∧
    do_random_name (read_wordlist "apple\nbanana\ncherry\n") [0, 1, 2]
      = "Apple\nBanana\nCherry\n" ∧
    (("Apple\nBanana\nCherry\n").data.contains '\n') = true := by
  refine ⟨?_, ?_, ?_⟩ <;> decide
